import Mathlib

/-
Verification of the thread-safe stack demo
(src/synchronization_thread_safe_stack/src/main.rs).

The Rust program defines a singly-linked stack

    struct StackNode<T> { data: T, next: Option<Box<StackNode<T>>> }
    struct Stack<T> { top: Option<Box<StackNode<T>>> }

with `new`, `push` and `pop`, a worker routine `test_stack` that, for
i in 0..500, pushes 3i+1 and 3i+2, pops, pushes 3i+3, pops twice,
logging one line per operation, and a `main` that runs 200 such workers,
each holding a mutex over the (stack, log writer) pair for its whole
sequence, so workers execute one after another in some order.

Below, `Box` is a plain heap indirection, so `Option<Box<StackNode<T>>>`
is embedded as `Option (StackNode T)`; the log writer is embedded as the
list of lines written so far, and `writeln!` as appending one line.
The Rust value type for the workload is `i32`; the workload values stay
far below 2^31, so they are embedded as `Int` (the final section below
makes the no-overflow fact precise).
-/

set_option autoImplicit false

namespace ThreadStack

universe u

variable {T : Type u}

/-- `StackNode<T>`: one element and the owned link to the next node. -/
inductive StackNode (T : Type u) : Type u where
  | mk (data : T) (next : Option (StackNode T))

/-- `Stack<T>`: the owned link to the top node, `none` when empty. -/
structure Stack (T : Type u) : Type u where
  top : Option (StackNode T)

/-- `Stack::new`: the empty stack. -/
def Stack.new : Stack T := ⟨none⟩

/-- `Stack::push`: a new node holding `data` whose `next` takes the old top. -/
def Stack.push (s : Stack T) (data : T) : Stack T :=
  ⟨some (StackNode.mk data s.top)⟩

/-- `Stack::pop`: `self.top.take().map(|node| { let ret = node.data;
self.top = node.next; ret })` — returns the popped value (if any) and the
stack afterwards. -/
def Stack.pop (s : Stack T) : Option T × Stack T :=
  match s.top with
  | none => (none, s)
  | some (StackNode.mk data next) => (some data, ⟨next⟩)

/-- The chain of data values hanging off a node, top first. -/
def StackNode.toList : StackNode T → List T
  | .mk d none => [d]
  | .mk d (some n) => d :: n.toList

/-- The stack's contents as a list, top first. -/
def Stack.toList (s : Stack T) : List T :=
  match s.top with
  | none => []
  | some n => n.toList

/-- Number of elements in the stack. -/
def Stack.size (s : Stack T) : Nat := s.toList.length

/-- The stack is empty iff it has no top node. -/
def Stack.isEmpty (s : Stack T) : Bool := s.top.isNone

@[simp] theorem Stack.pop_push (s : Stack T) (v : T) :
    (s.push v).pop = (some v, s) := rfl

@[simp] theorem Stack.toList_new : (Stack.new : Stack T).toList = [] := rfl

@[simp] theorem Stack.toList_push (s : Stack T) (v : T) :
    (s.push v).toList = v :: s.toList := by
  cases s with
  | mk top => cases top <;> rfl

/-- Push the values of `vs` in order (head first), as a loop of `push` calls. -/
def Stack.pushAll (s : Stack T) : List T → Stack T
  | [] => s
  | v :: vs => (s.push v).pushAll vs

/-- Perform `n` consecutive `pop` calls, collecting the results in order. -/
def Stack.popN (s : Stack T) : Nat → List (Option T) × Stack T
  | 0 => ([], s)
  | n + 1 =>
    match s.pop with
    | (r, s1) =>
      match s1.popN n with
      | (rs, s2) => (r :: rs, s2)

@[simp] theorem Stack.popN_zero (s : Stack T) : s.popN 0 = ([], s) := rfl

theorem Stack.popN_succ (s : Stack T) (n : Nat) :
    s.popN (n + 1) =
      ((s.pop.1 :: (s.pop.2.popN n).1), (s.pop.2.popN n).2) := by
  show (match s.pop with
        | (r, s1) =>
          match s1.popN n with
          | (rs, s2) => (r :: rs, s2)) = _
  rcases h : s.pop with ⟨r, s1⟩
  rcases h2 : s1.popN n with ⟨rs, s2⟩
  simp [h, h2]

/-- Splitting a run of `m + n` pops into a run of `m` then a run of `n`. -/
theorem Stack.popN_add (s : Stack T) (m n : Nat) :
    s.popN (m + n) =
      (((s.popN m).1 ++ ((s.popN m).2.popN n).1), ((s.popN m).2.popN n).2) := by
  induction m generalizing s with
  | zero => simp
  | succ m ih =>
    have : m + 1 + n = (m + n) + 1 := by omega
    rw [this, Stack.popN_succ, Stack.popN_succ, ih]
    simp

/-- C1: pushing v1..vn with no interleaved pops and then popping n times
returns `some vn, …, some v1` in that exact order (and restores the stack). -/
theorem C1_lifo (s : Stack T) (vs : List T) :
    (s.pushAll vs).popN vs.length = (vs.reverse.map some, s) := by
  induction vs generalizing s with
  | nil => simp [Stack.pushAll]
  | cons v vs ih =>
    have hlen : (v :: vs).length = vs.length + 1 := rfl
    rw [Stack.pushAll, hlen, Stack.popN_add, ih (s.push v)]
    simp [Stack.popN_succ]

/-- One operation issued against the stack. -/
inductive Op (T : Type u) : Type u where
  | push (v : T)
  | pop

/-- Run a sequence of operations; return the final stack, the number of
pushes executed and the number of pops that returned a value. -/
def runOps (s : Stack T) : List (Op T) → Stack T × Nat × Nat
  | [] => (s, 0, 0)
  | Op.push v :: ops =>
    match runOps (s.push v) ops with
    | (s1, p, q) => (s1, p + 1, q)
  | Op.pop :: ops =>
    match s.pop with
    | (r, s1) =>
      match runOps s1 ops with
      | (s2, p, q) => (s2, p, if r.isSome then q + 1 else q)

theorem runOps_push (s : Stack T) (v : T) (ops : List (Op T)) :
    runOps s (Op.push v :: ops)
      = ((runOps (s.push v) ops).1,
         (runOps (s.push v) ops).2.1 + 1, (runOps (s.push v) ops).2.2) := by
  show (match runOps (s.push v) ops with
        | (s1, p, q) => (s1, p + 1, q)) = _
  rcases h : runOps (s.push v) ops with ⟨s1, p, q⟩
  simp

theorem runOps_pop (s : Stack T) (ops : List (Op T)) :
    runOps s (Op.pop :: ops)
      = ((runOps s.pop.2 ops).1,
         (runOps s.pop.2 ops).2.1,
         if s.pop.1.isSome then (runOps s.pop.2 ops).2.2 + 1
         else (runOps s.pop.2 ops).2.2) := by
  show (match s.pop with
        | (r, s1) =>
          match runOps s1 ops with
          | (s2, p, q) => (s2, p, if r.isSome then q + 1 else q)) = _
  rcases hp : s.pop with ⟨r, s1⟩
  rcases h : runOps s1 ops with ⟨s2, p, q⟩
  simp [hp, h]

theorem Stack.pop_size (s : Stack T) :
    s.size = s.pop.2.size + (if s.pop.1.isSome then 1 else 0) := by
  cases s with
  | mk top =>
    cases top with
    | none => rfl
    | some n =>
      cases n with
      | mk d next =>
        cases next <;> simp [Stack.pop, Stack.size, Stack.toList, StackNode.toList]

/-- Size bookkeeping for a whole run: final size plus successful pops
equals initial size plus pushes. -/
theorem runOps_size (s : Stack T) (ops : List (Op T)) :
    (runOps s ops).1.size + (runOps s ops).2.2
      = s.size + (runOps s ops).2.1 := by
  induction ops generalizing s with
  | nil => rfl
  | cons op ops ih =>
    cases op with
    | push v =>
      rw [runOps_push]
      have h := ih (s.push v)
      have hsz : (s.push v).size = s.size + 1 := by simp [Stack.size]
      simp only
      omega
    | pop =>
      rw [runOps_pop]
      have h := ih s.pop.2
      have hsz := Stack.pop_size s
      by_cases hr : s.pop.1.isSome = true <;> (simp [hr] at hsz ⊢; omega)

/-- C5: starting from the empty stack, after any operation sequence the
element count equals (#pushes executed) − (#pops that returned a value),
as integers, and that difference is never negative. -/
theorem C5_count_invariant (ops : List (Op T)) :
    ((runOps (Stack.new : Stack T) ops).1.size : Int)
        = ((runOps (Stack.new : Stack T) ops).2.1 : Int)
          - ((runOps (Stack.new : Stack T) ops).2.2 : Int)
    ∧ (0 : Int) ≤ ((runOps (Stack.new : Stack T) ops).2.1 : Int)
          - ((runOps (Stack.new : Stack T) ops).2.2 : Int) := by
  have h := runOps_size (Stack.new : Stack T) ops
  have hnew : (Stack.new : Stack T).size = 0 := rfl
  rw [hnew] at h
  constructor <;> omega

/-- C3: `push` immediately followed by `pop` returns exactly the pushed
value and restores the stack to its prior state. -/
theorem C3_push_pop (s : Stack T) (v : T) : (s.push v).pop = (some v, s) :=
  rfl

/-- C4: `pop` on an empty stack returns `none` (it is a total function, so
it cannot fail), and the stack is unchanged, hence still empty. -/
theorem C4_empty_pop (s : Stack T) (h : s.isEmpty = true) :
    s.pop = (none, s) := by
  cases s with
  | mk top =>
    cases top with
    | none => rfl
    | some n => simp [Stack.isEmpty] at h

/-- Witness for C4 at the concrete empty stack of `Int`. -/
theorem C4_empty_pop_witness :
    (Stack.new : Stack Int).isEmpty = true ∧
      (Stack.new : Stack Int).pop = (none, Stack.new) :=
  ⟨rfl, C4_empty_pop Stack.new rfl⟩

/-! ## The worker routine `test_stack` and the log

The `BufWriter` is embedded as the list of lines written so far; each
`writeln!` appends one line. -/

/-- `pop_and_log`: pop; on `Some(value)` write `"Popped {value}"`, else
write `"Stack was empty, nothing to pop"`. -/
def pop_and_log (stack : Stack Int) (log : List String) :
    Stack Int × List String :=
  match stack.pop with
  | (some value, s) => (s, log ++ ["Popped " ++ toString value])
  | (none, s) => (s, log ++ ["Stack was empty, nothing to pop"])

/-- One pass of the `for i in 0..500` loop body of `test_stack`:
log and push `3i+1`, log and push `3i+2`, pop-and-log, log and push
`3i+3`, pop-and-log twice. -/
def test_stack_iter (i : Int) (stack : Stack Int) (log : List String) :
    Stack Int × List String :=
  let next_value1 := i * 3 + 1
  let log := log ++ ["Pushing " ++ toString next_value1]
  let stack := stack.push next_value1
  let next_value2 := i * 3 + 2
  let log := log ++ ["Pushing " ++ toString next_value2]
  let stack := stack.push next_value2
  let sl1 := pop_and_log stack log
  let next_value3 := i * 3 + 3
  let log := sl1.2 ++ ["Pushing " ++ toString next_value3]
  let stack := sl1.1.push next_value3
  let sl2 := pop_and_log stack log
  pop_and_log sl2.1 sl2.2

/-- `test_stack`, with the loop bound `500` generalized to `n`
(`ops_per_worker`); the loop runs `i = 0, 1, …, n-1`. -/
def test_stackN (n : Nat) (stack : Stack Int) (log : List String) :
    Stack Int × List String :=
  (List.range n).foldl (fun st i => test_stack_iter (Int.ofNat i) st.1 st.2)
    (stack, log)

/-- `test_stack` exactly as in the source: 500 loop iterations. -/
def test_stack (stack : Stack Int) (log : List String) :
    Stack Int × List String :=
  test_stackN 500 stack log

/-- The six log lines produced by loop iteration `i`. -/
def block (i : Int) : List String :=
  ["Pushing " ++ toString (i * 3 + 1),
   "Pushing " ++ toString (i * 3 + 2),
   "Popped " ++ toString (i * 3 + 2),
   "Pushing " ++ toString (i * 3 + 3),
   "Popped " ++ toString (i * 3 + 3),
   "Popped " ++ toString (i * 3 + 1)]

/-- The log produced by `n` loop iterations: blocks for `i = 0, …, n-1`. -/
def expectedLog : Nat → List String
  | 0 => []
  | n + 1 => expectedLog n ++ block (Int.ofNat n)

/-- One loop iteration appends exactly its six-line block to the log and
returns the stack exactly as it found it — every one of its pops hits a
value it just pushed, whatever the stack beneath. -/
theorem test_stack_iter_eq (i : Int) (s : Stack Int) (log : List String) :
    test_stack_iter i s log = (s, log ++ block i) := by
  simp [test_stack_iter, pop_and_log, Stack.pop_push, block]

theorem test_stackN_succ (n : Nat) (s : Stack Int) (log : List String) :
    test_stackN (n + 1) s log
      = test_stack_iter (Int.ofNat n) (test_stackN n s log).1
          (test_stackN n s log).2 := by
  simp [test_stackN, List.range_succ]

/-- `test_stack`'s loop appends the blocks for `i = 0, …, n-1` and hands
the stack back unchanged. -/
theorem test_stackN_eq (n : Nat) (s : Stack Int) (log : List String) :
    test_stackN n s log = (s, log ++ expectedLog n) := by
  induction n with
  | zero => simp [test_stackN, expectedLog]
  | succ n ih =>
    rw [test_stackN_succ, ih, test_stack_iter_eq, expectedLog]
    simp

/-- C2: a worker's own log output is exactly the concatenation of the
six-line blocks for `i = 0, 1, …` up to `ops_per_worker`; with one
iteration it is the six concrete lines for values 1, 2, 3, and the second
iteration appends the block for values 4, 5, 6. -/
theorem C2_worker_log :
    (∀ n : Nat, (test_stackN n Stack.new []).2 = expectedLog n)
    ∧ (test_stackN 1 Stack.new []).2
        = ["Pushing 1", "Pushing 2", "Popped 2",
           "Pushing 3", "Popped 3", "Popped 1"]
    ∧ (test_stackN 2 Stack.new []).2
        = ["Pushing 1", "Pushing 2", "Popped 2",
           "Pushing 3", "Popped 3", "Popped 1",
           "Pushing 4", "Pushing 5", "Popped 5",
           "Pushing 6", "Popped 6", "Popped 4"] := by
  refine ⟨fun n => ?_, ?_, ?_⟩
  · rw [test_stackN_eq]; simp
  · rfl
  · rfl

/-- C6 counterexample: the worker sequence run on an (empty) stack does
NOT leave the stack non-empty — the full 500-iteration `test_stack`
starting from the empty stack ends with the stack empty. -/
theorem C6_counterexample :
    ((test_stack Stack.new []).1).isEmpty = true := by
  rw [test_stack, test_stackN_eq]
  rfl

/-- C6 (amended): every execution of the worker operation sequence
returns the stack exactly to the state in which it found it — each
iteration's three pops all succeed on freshly pushed values — so from an
empty start the sequence leaves the stack empty, not non-empty. -/
theorem C6_stack_restored (n : Nat) (s : Stack Int) (log : List String) :
    (test_stackN n s log).1 = s := by
  rw [test_stackN_eq]

/-- C9: an iteration of the worker loop maps an empty stack to an empty
stack (three pushes and three successful pops net to zero), and a full
execution of the worker sequence maps the empty stack to an empty stack. -/
theorem C9_empty_to_empty :
    (∀ (i : Int) (s : Stack Int) (log : List String),
        s.isEmpty = true → ((test_stack_iter i s log).1).isEmpty = true)
    ∧ (∀ (n : Nat) (log : List String),
        ((test_stackN n Stack.new log).1).isEmpty = true) := by
  constructor
  · intro i s log h
    rw [test_stack_iter_eq]
    exact h
  · intro n log
    rw [test_stackN_eq]
    rfl

/-- Witness for C9 at iteration `i = 0` on the concrete empty stack. -/
theorem C9_empty_to_empty_witness :
    (Stack.new : Stack Int).isEmpty = true
      ∧ ((test_stack_iter 0 Stack.new []).1).isEmpty = true :=
  ⟨rfl, C9_empty_to_empty.1 0 Stack.new [] rfl⟩

theorem append_ne_empty_line (a t : String) (c : Char) (h : a.data.head? = some c)
    (hc : c ≠ 'S') : a ++ t ≠ "Stack was empty, nothing to pop" := by
  intro he
  have h2 := congrArg String.data he
  rw [String.data_append] at h2
  rcases hd : a.data with _ | ⟨x, xs⟩
  · rw [hd] at h; simp at h
  · rw [hd] at h h2
    simp at h
    rw [show ("Stack was empty, nothing to pop").data
          = 'S' :: ("tack was empty, nothing to pop").data from rfl] at h2
    simp at h2
    exact hc (h ▸ h2.1)

/-- No line of any iteration's block is the empty-stack line. -/
theorem empty_line_not_mem_block (i : Int) :
    "Stack was empty, nothing to pop" ∉ block i := by
  have hPush : ("Pushing ").data.head? = some 'P' := rfl
  have hPop : ("Popped ").data.head? = some 'P' := rfl
  have hP : ('P' : Char) ≠ 'S' := by decide
  simp only [block, List.mem_cons, List.not_mem_nil, or_false]
  push_neg
  refine ⟨?_, ?_, ?_, ?_, ?_, ?_⟩ <;>
    (intro h; exact append_ne_empty_line _ _ 'P' (by rfl) hP h.symm)

theorem empty_line_not_mem_expectedLog (n : Nat) :
    "Stack was empty, nothing to pop" ∉ expectedLog n := by
  induction n with
  | zero => simp [expectedLog]
  | succ n ih =>
    rw [expectedLog]
    simp only [List.mem_append, not_or]
    exact ⟨ih, empty_line_not_mem_block _⟩

/-- C10: if the stack is empty when the worker sequence begins, every pop
performed by the sequence returns a value, so the empty branch of
`pop_and_log` never fires: the line "Stack was empty, nothing to pop" is
never written to the log. -/
theorem C10_no_empty_pop_line (n : Nat) (s : Stack Int)
    (_h : s.isEmpty = true) :
    "Stack was empty, nothing to pop" ∉ (test_stackN n s []).2 := by
  rw [test_stackN_eq]
  simp only [List.nil_append]
  exact empty_line_not_mem_expectedLog n

/-- Witness for C10 on the concrete empty stack with one iteration. -/
theorem C10_no_empty_pop_line_witness :
    (Stack.new : Stack Int).isEmpty = true
      ∧ "Stack was empty, nothing to pop" ∉ (test_stackN 1 Stack.new []).2 :=
  ⟨rfl, C10_no_empty_pop_line 1 Stack.new rfl⟩

/-! ## `main`: 200 workers over one shared stack and writer

Each spawned thread locks the stack and the writer for its entire call
to `test_stack`, so any execution of `main` is the sequential composition
of the workers' full sequences in the order the lock is granted; the
workers are identical, so every grant order yields the same composition. -/

/-- The worker phase of `main`, with the per-worker iteration count `n`
and the worker count `w` generalized (the source fixes `n = 500`,
`w = 200`): `w` sequential full runs of the worker sequence against the
shared stack and log. -/
def runWorkers (n : Nat) : Nat → Stack Int × List String → Stack Int × List String
  | 0, st => st
  | w + 1, st => runWorkers n w (test_stackN n st.1 st.2)

theorem runWorkers_eq (n w : Nat) (s : Stack Int) (log : List String) :
    runWorkers n w (s, log)
      = (s, log ++ (List.replicate w (expectedLog n)).flatten) := by
  induction w generalizing log with
  | zero => simp [runWorkers]
  | succ w ih =>
    rw [runWorkers, test_stackN_eq, ih]
    simp [List.replicate_succ]

theorem expectedLog_length (n : Nat) : (expectedLog n).length = n * 6 := by
  induction n with
  | zero => rfl
  | succ n ih => rw [expectedLog]; simp [ih, block]; omega

/-- C7: with at least two workers serialized by the lock, the final log
is the concatenation of one full per-worker log per worker — so each
worker's lines appear whole and in its own operation order — and its
total line count is exactly `worker_count * ops_per_worker * 6`; for the
baseline `w = 200`, `n = 500` that is 600000 lines. -/
theorem C7_log_lines (w n : Nat) (_h : 2 ≤ w) :
    (runWorkers n w (Stack.new, [])).2
        = (List.replicate w (expectedLog n)).flatten
    ∧ ((runWorkers n w (Stack.new, [])).2).length = w * n * 6
    ∧ ((runWorkers 500 200 (Stack.new, [])).2).length = 200 * 500 * 6 := by
  have hlen : ∀ w' n' : Nat,
      ((runWorkers n' w' (Stack.new, [])).2).length = w' * n' * 6 := by
    intro w' n'
    rw [runWorkers_eq]
    simp [List.length_flatten, expectedLog_length]
    ring
  exact ⟨by rw [runWorkers_eq]; simp, hlen w n, hlen 200 500⟩

/-- Witness for C7 with two workers and one iteration each. -/
theorem C7_log_lines_witness :
    2 ≤ 2 ∧ ((runWorkers 1 2 (Stack.new, [])).2).length = 2 * 1 * 6 :=
  ⟨by decide, (C7_log_lines 2 1 (by decide)).2.1⟩

/-! ## The value type of the workload

`main` instantiates the stack at `i32` (`Stack::<i32>::new()`), Rust's
32-bit signed integer type, and `test_stack`'s loop variable `i` is
likewise an `i32`. -/

/-- Membership in the representable range of `i32`,
`-2^31 ≤ n ≤ 2^31 - 1`. -/
def inI32Range (n : Int) : Prop := -2147483648 ≤ n ∧ n ≤ 2147483647

instance (n : Int) : Decidable (inI32Range n) := by
  unfold inI32Range; infer_instance

/-- Two's-complement wrap-around of an unbounded integer into `i32`. -/
def i32wrap (n : Int) : Int := (n + 2147483648) % 4294967296 - 2147483648

/-- The three values pushed by loop iteration `i` of the worker
sequence. -/
def iterationValues (i : Int) : List Int := [i * 3 + 1, i * 3 + 2, i * 3 + 3]

/-- C8 counterexample: the value type of the workload is `i32`, whose
range is bounded, not unbounded — the integer `2^31` is outside it and
is not represented faithfully. -/
theorem C8_counterexample :
    ¬ inI32Range 2147483648 ∧ i32wrap 2147483648 ≠ 2147483648 := by
  constructor
  · intro h
    exact absurd h.2 (by decide)
  · decide

/-- C8 (amended): the worker sequence uses values of the single bounded
32-bit signed integer type `i32`; for every loop index `0 ≤ i < 500`,
the index and all three pushed values `3i+1, 3i+2, 3i+3` lie inside the
`i32` range, so `i32` arithmetic agrees with unbounded-integer
arithmetic on every value the program computes. -/
theorem C8_values_fit_i32 (i : Int) (h0 : 0 ≤ i) (h1 : i < 500) :
    inI32Range i ∧ i32wrap i = i
    ∧ ∀ v ∈ iterationValues i,
        inI32Range v ∧ i32wrap (i32wrap (i32wrap i * 3) + (v - i * 3)) = v := by
  refine ⟨?_, ?_, ?_⟩
  · exact ⟨by omega, by omega⟩
  · simp only [i32wrap]; omega
  · intro v hv
    simp only [iterationValues, List.mem_cons, List.not_mem_nil, or_false] at hv
    rcases hv with h | h | h <;> subst h <;>
      exact ⟨⟨by omega, by omega⟩, by simp only [i32wrap]; omega⟩

/-- Witness for C8 at loop index `i = 0`. -/
theorem C8_values_fit_i32_witness :
    ((0 : Int) ≤ 0 ∧ (0 : Int) < 500)
    ∧ (inI32Range 0 ∧ i32wrap 0 = 0
       ∧ ∀ v ∈ iterationValues 0,
           inI32Range v ∧ i32wrap (i32wrap (i32wrap 0 * 3) + (v - 0 * 3)) = v) :=
  ⟨by decide, C8_values_fit_i32 0 (by decide) (by decide)⟩

end ThreadStack
